import Mathlib

/-!
Verification development for the response reconstruction pipeline of
`src/app.py` (a Streamlit front-end for a Bedrock agent).

The Python code is shallowly embedded over `List Char`: each relevant Python
function becomes an executable Lean function with the same name, translated
statement by statement from the source.  Strings are ASCII in all inputs this
program handles; character classification (`str.isupper`, `str.strip`,
`re.IGNORECASE`) is modelled on ASCII.
-/

set_option maxRecDepth 100000

namespace App

/-- ASCII model of the character class stripped by Python `str.strip()`. -/
def pyWhitespace (c : Char) : Bool :=
  c == ' ' || c == '\t' || c == '\n' || c == '\r' || c == '\x0b' || c == '\x0c'

/-- Python `str.strip()`: drop leading and trailing whitespace. -/
def stripChars (s : List Char) : List Char :=
  ((s.dropWhile pyWhitespace).reverse.dropWhile pyWhitespace).reverse

/-- Python `str.replace(pat, rep)` specialised to the two-character patterns
used by `cleanup_response_text` (`'\\n'`, `'\\t'`, `'\\r'`): scan left to
right, replacing each non-overlapping occurrence `a, b` by `rep` and
continuing after the replaced span. -/
def replace2 (a b : Char) (rep : List Char) : List Char → List Char
  | [] => []
  | [c] => [c]
  | c :: d :: s =>
    if c == a && d == b then rep ++ replace2 a b rep s
    else c :: replace2 a b rep (d :: s)

/-- Lines 51–56 of `cleanup_response_text`: the three sequential
`str.replace` calls repairing literal escape sequences —
`'\\n' -> newline`, then `'\\t' -> ' '`, then `'\\r' -> ''`. -/
def repairEscapes (text : List Char) : List Char :=
  replace2 '\\' 'r' [] (replace2 '\\' 't' [' '] (replace2 '\\' 'n' ['\n'] text))

/-- ASCII case folding, modelling the effect of `re.IGNORECASE` on the
ASCII pattern literals of `unwanted_phrases`. -/
def lowerAscii (c : Char) : Char :=
  if 'A' ≤ c && c ≤ 'Z' then Char.ofNat (c.toNat + 32) else c

/-- Case-insensitive "the pattern literal `a` matches at the head of `s`". -/
def ciStartsWith : List Char → List Char → Bool
  | [], _ => true
  | _ :: _, [] => false
  | a :: as, b :: bs => lowerAscii a == lowerAscii b && ciStartsWith as bs

/-- One regex pattern of `unwanted_phrases` is represented as the list of its
literal alternatives in the backtracking priority order of Python `re`
(greedy optional parts first).  `firstAltMatch` returns the length of the
text matched at the head of `s` by the first alternative that matches. -/
def firstAltMatch (alts : List (List Char)) (s : List Char) : Option Nat :=
  match alts with
  | [] => none
  | a :: rest => if !a.isEmpty && ciStartsWith a s then some a.length else firstAltMatch rest s

/-- Scanner for `re.sub(pattern, '', text, flags=re.IGNORECASE)`: at each
position delete the leftmost match (resolved by alternative priority) and
continue after it.  The first argument counts characters of a match that
remain to be skipped.  All alternatives are nonempty, so `firstAltMatch`
never returns `some 0`; that unreachable case keeps the text unchanged. -/
def subPatternAux (alts : List (List Char)) : Nat → List Char → List Char
  | _ + 1, [] => []
  | k + 1, _ :: s => subPatternAux alts k s
  | 0, [] => []
  | 0, c :: s =>
    match firstAltMatch alts (c :: s) with
    | some (n + 1) => subPatternAux alts n s
    | some 0 => c :: s
    | none => c :: subPatternAux alts 0 s

/-- Python `re.sub(pattern, '', text, flags=re.IGNORECASE)` for one pattern
of `unwanted_phrases`, the pattern given by its alternatives in
backtracking priority order. -/
def subPattern (alts : List (List Char)) (s : List Char) : List Char :=
  subPatternAux alts 0 s

/-- The alternatives of a regex `literal ++ "\.?"` with the greedy optional
period: period-consuming alternative first. -/
def litAlts (s : String) : List (List Char) :=
  [(s ++ ".").data, s.data]

/-- The alternatives of the final regex of `unwanted_phrases`
(`[Tt]his is (?:also )?(?:outlined|mentioned|stated|found|shown) in
(?:the )?(?:table in )?(?:the )?search results\.?`), enumerated in
backtracking priority order: each greedy optional group tries its
present form first, and the alternation tries its branches left to right. -/
def pat16Alts : List (List Char) :=
  (["also ", ""]).flatMap (fun also =>
   (["outlined", "mentioned", "stated", "found", "shown"]).flatMap (fun verb =>
    (["the ", ""]).flatMap (fun the1 =>
     (["table in ", ""]).flatMap (fun tab =>
      (["the ", ""]).flatMap (fun the2 =>
       ([".", ""]).map (fun dot =>
        ("This is " ++ also ++ verb ++ " in " ++ the1 ++ tab ++ the2 ++ "search results" ++ dot).data))))))

/-- The `unwanted_phrases` list of `cleanup_response_text` (lines 59–76),
each regex represented by its alternatives in priority order. -/
def unwanted_phrases : List (List (List Char)) :=
  [ litAlts "This is outlined in the search results"
  , litAlts "This is also outlined in the search results"
  , litAlts "This is mentioned in the search results"
  , litAlts "This is also mentioned in the search results"
  , litAlts "As mentioned in the search results"
  , litAlts "According to the search results"
  , litAlts "The search results indicate"
  , litAlts "Based on the search results"
  , litAlts "As shown in the search results"
  , litAlts "As outlined in the search results"
  , litAlts "As stated in the search results"
  , litAlts "This is outlined in the table in the search results"
  , litAlts "This is also outlined in the table in the search results"
  , litAlts "This information is found in the search results"
  , litAlts "This can be found in the search results"
  , pat16Alts ]

/-- Lines 78–79: apply `re.sub(phrase, '', text, flags=re.IGNORECASE)` for
each phrase of `unwanted_phrases` in order. -/
def removePhrases (text : List Char) : List Char :=
  unwanted_phrases.foldl (fun t alts => subPattern alts t) text

/-- Line 82, `re.sub(r' +', ' ', text)`: collapse each run of spaces to one
space (scanning left to right, a space followed by another space is
dropped). -/
def collapseSpaces : List Char → List Char
  | [] => []
  | [c] => [c]
  | c :: d :: s =>
    if c == ' ' && d == ' ' then collapseSpaces (d :: s)
    else c :: collapseSpaces (d :: s)

/-- Emits `['\n', '\n']` if a run of `k ≥ 3` newlines was pending, otherwise the
pending newlines unchanged. -/
def newlinesOut (k : Nat) : List Char :=
  if 3 ≤ k then ['\n', '\n'] else List.replicate k '\n'

/-- Scanner for line 85, `re.sub(r'\n{3,}', '\n\n', text)`: the first
argument counts the newlines of the maximal run currently being read. -/
def collapseNLAux : Nat → List Char → List Char
  | k, [] => newlinesOut k
  | k, c :: s =>
    if c == '\n' then collapseNLAux (k + 1) s
    else newlinesOut k ++ c :: collapseNLAux 0 s

/-- Line 85, `re.sub(r'\n{3,}', '\n\n', text)`: collapse each maximal run of
three or more newlines to exactly two. -/
def collapseNewlines (s : List Char) : List Char :=
  collapseNLAux 0 s

/-- Python `text.split(sep)` for a one-character separator: keeps empty
pieces, `''.split(sep) == ['']`. -/
def splitOnChar (sep : Char) : List Char → List (List Char)
  | [] => [[]]
  | c :: s =>
    if c == sep then [] :: splitOnChar sep s
    else
      match splitOnChar sep s with
      | [] => [[c]]
      | l :: ls => (c :: l) :: ls

/-- Python `sep.join(pieces)` for a one-character separator. -/
def joinWith (sep : Char) : List (List Char) → List Char
  | [] => []
  | [l] => l
  | l :: l' :: ls => l ++ sep :: joinWith sep (l' :: ls)

/-- Model of `cleanup_response_text` (lines 43–102): escape repair, boilerplate phrase
removal, space collapse, newline collapse, per-line strip, final whole-text
strip.  The debug-mode logging of the source is side-effect only and does not
change the returned value. -/
def cleanup_response_text (text : List Char) : List Char :=
  stripChars (joinWith '\n'
    ((splitOnChar '\n'
        (collapseNewlines (collapseSpaces (removePhrases (repairEscapes text))))).map stripChars))

/-- The first diagnostic message of `validate_response_integrity` (line 30). -/
def msgTooShort : List Char :=
  "Response was significantly shortened during processing".data

/-- The second diagnostic message of `validate_response_integrity` (line 34). -/
def msgMidSentence : List Char :=
  "Response appears to start mid-sentence".data

/-- The accepted leading punctuation marks of line 33: `['(', '[', '"', "'"]`. -/
def leadingPuncts : List Char := ['(', '[', '"', '\'']

/-- Line 33's condition: `text and not text[0].isupper() and text[0] not in
['(', '[', '"', "'"]` (`str.isupper` modelled on ASCII). -/
def startsMidSentenceFlag : List Char → Bool
  | [] => false
  | c :: _ => !c.isUpper && !leadingPuncts.contains c

/-- Model of `validate_response_integrity` (lines 24–41).  The third check of the
source (line 37) appends nothing. -/
def validate_response_integrity (text : List Char) (original_length : Nat) :
    List (List Char) :=
  let issues : List (List Char) := []
  let issues :=
    if text.length < 10 ∧ original_length > 10 then issues ++ [msgTooShort] else issues
  let issues :=
    if startsMidSentenceFlag text then issues ++ [msgMidSentence] else issues
  issues

/-- The `content` dict of a retrieved reference: optional `text` and
`content` fields. -/
structure ContentRec where
  text : Option (List Char)
  content : Option (List Char)
deriving DecidableEq

/-- The `s3Location` dict of a reference location: optional `uri` field. -/
structure S3Location where
  uri : Option (List Char)
deriving DecidableEq

/-- The `location` dict of a retrieved reference. -/
structure LocationRec where
  s3Location : Option S3Location
deriving DecidableEq

/-- One entry of a citation's `retrievedReferences` list. -/
structure Reference where
  location : Option LocationRec
  content : Option ContentRec
deriving DecidableEq

/-- One raw citation record as accumulated by `invoke_bedrock_agent`. -/
structure RawCitation where
  retrievedReferences : List Reference
deriving DecidableEq

/-- Lines 139–144 of `display_citation_sidebar`: resolve the reference text
from `content['text']` if present and non-empty (stripped), else from
`content['content']` if present and non-empty (stripped), else nothing. -/
def resolveText (r : Reference) : Option (List Char) :=
  match r.content with
  | none => none
  | some c =>
    match c.text with
    | some t =>
      if t.isEmpty then
        match c.content with
        | some u => if u.isEmpty then none else some (stripChars u)
        | none => none
      else some (stripChars t)
    | none =>
      match c.content with
      | some u => if u.isEmpty then none else some (stripChars u)
      | none => none

/-- Lines 155–156: `location.get('s3Location', {}).get('uri', 'Unknown source')`. -/
def refUri (r : Reference) : List Char :=
  match r.location with
  | none => "Unknown source".data
  | some loc =>
    match loc.s3Location with
    | none => "Unknown source".data
    | some s3 =>
      match s3.uri with
      | none => "Unknown source".data
      | some u => u

/-- Line 157: `uri.split('/')[-1] if '/' in uri else uri`. -/
def sourceNameOf (uri : List Char) : List Char :=
  if uri.contains '/' then (splitOnChar '/' uri).getLastD [] else uri

/-- One numbered source entry rendered by `display_citation_sidebar`. -/
structure SidebarEntry where
  source_name : List Char
  uri : List Char
  text : List Char
deriving DecidableEq

/-- One iteration of the inner loop of `display_citation_sidebar` (lines
135–167): resolve the reference text, skip the reference when no non-empty
text resulted (`if not text or text == '': continue`), otherwise produce
the displayed entry. -/
def keptRef (r : Reference) : Option SidebarEntry :=
  match resolveText r with
  | none => none
  | some t => if t.isEmpty then none else some ⟨sourceNameOf (refUri r), refUri r, t⟩

/-- The loop of `display_citation_sidebar`: `citation_num` starts at 1 and
increments only when an entry is emitted. -/
def sidebarLoop : Nat → List Reference → List (Nat × SidebarEntry)
  | _, [] => []
  | n, r :: rs =>
    match keptRef r with
    | none => sidebarLoop n rs
    | some e => (n, e) :: sidebarLoop (n + 1) rs

/-- Model of `display_citation_sidebar` (lines 121–171), given as the list of
numbered entries it renders: the double loop over the citations and their
`retrievedReferences` visits the references in arrival order. -/
def display_citation_sidebar (citations : List RawCitation) : List (Nat × SidebarEntry) :=
  sidebarLoop 1 (citations.flatMap (fun c => c.retrievedReferences))

/-- Python `f'[{i+1}]'` (line 114) for the 1-based index: one marker token. -/
def marker (i : Nat) : List Char :=
  '[' :: (Nat.repr i).data ++ [']']

/-- The marker tokens `[1] … [n]` in order. -/
def markersList (n : Nat) : List (List Char) :=
  (List.range n).map (fun i => marker (i + 1))

/-- Python `sub in s`: substring containment. -/
def containsSub (pat : List Char) : List Char → Bool
  | [] => pat.isEmpty
  | c :: s => pat.isPrefixOf (c :: s) || containsSub pat s

/-- Line 112: `sum(len(c.get('retrievedReferences', [])) for c in citations)`. -/
def citationCount (citations : List RawCitation) : Nat :=
  (citations.map (fun c => c.retrievedReferences.length)).sum

/-- Model of `insert_citation_markers` (lines 104–119): if there are citation
records and their reference count is positive, append the space-separated
marker run, unless one of the marker tokens already occurs in the text. -/
def insert_citation_markers (text : List Char) (citations : List RawCitation) :
    List Char :=
  if citations.isEmpty then text
  else
    let citation_count := citationCount citations
    if citation_count > 0 then
      if (List.range citation_count).any (fun i => containsSub (marker (i + 1)) text) then
        text
      else text ++ ' ' :: joinWith ' ' (markersList citation_count)
    else text

/-- Final-validation fallback of `invoke_bedrock_agent` (lines 296–301):
if the cleaned text is empty or shorter than 5 characters, discard it in
favour of the trimmed raw text (or a fixed error message when nothing at
all was received). -/
def finalizeCompletion (raw_completion : List Char) : List Char :=
  let completion := cleanup_response_text raw_completion
  if completion.isEmpty || completion.length < 5 then
    if raw_completion.isEmpty then "Error: Empty response received".data
    else stripChars raw_completion
  else completion

/-- The value returned by `invoke_bedrock_agent`. -/
structure RawResponse where
  text : List Char
  citations : List RawCitation
deriving DecidableEq

/-- The observable outcome of the streaming call inside
`invoke_bedrock_agent`: either the accumulated raw completion text and raw
citation records, or the exception caught at line 305 (`ClientError`) or
line 309 (any other exception), carried with its message string. -/
inductive InvokeOutcome where
  | success (raw_completion : List Char) (citations : List RawCitation)
  | clientError (message : List Char)
  | otherError (message : List Char)
deriving DecidableEq

/-- Model of `invoke_bedrock_agent` (lines 204–312) as a function of the call's
outcome: the success path returns the finalized completion with the
accumulated citations; the two `except` arms return an error text with an
empty citation list instead of raising. -/
def invoke_bedrock_agent : InvokeOutcome → RawResponse
  | .success raw cits => ⟨finalizeCompletion raw, cits⟩
  | .clientError msg => ⟨"Error: AWS Error: ".data ++ msg, []⟩
  | .otherError msg => ⟨"Error: Error invoking agent: ".data ++ msg, []⟩

/-- The role of a stored message. -/
inductive Role where
  | user
  | assistant
deriving DecidableEq

/-- One entry of `st.session_state.messages`; user turns carry no
`citations` key, modelled as the empty list. -/
structure Turn where
  role : Role
  content : List Char
  citations : List RawCitation
deriving DecidableEq

/-- The chat-input handler (lines 486–499): append the user turn, invoke
the agent, append the assistant turn with the response text and citations. -/
def handle_chat_input (messages : List Turn) (prompt : List Char)
    (outcome : InvokeOutcome) : List Turn :=
  let messages := messages ++ [⟨.user, prompt, []⟩]
  let response := invoke_bedrock_agent outcome
  messages ++ [⟨.assistant, response.text, response.citations⟩]

/-- The message display loop (lines 441–459): an assistant turn with a
non-empty citation list is rendered with citation markers inserted; every
other turn is rendered as stored. -/
def displayedContent (t : Turn) : List Char :=
  if t.role = Role.assistant ∧ t.citations ≠ [] then
    insert_citation_markers t.content t.citations
  else t.content

/-- Example reference with a resolvable URI and non-empty primary text. -/
def exRefA : Reference :=
  ⟨some ⟨some ⟨some "s3://bucket/docs/guide.pdf".data⟩⟩, some ⟨some "First source.".data, none⟩⟩

/-- Example reference whose primary text field is present but empty and whose
fallback field is absent: its resolved text is absent. -/
def exRefEmpty : Reference := ⟨none, some ⟨some [], none⟩⟩

/-- Example reference resolved through the fallback `content` field, with no
location information. -/
def exRefB : Reference := ⟨none, some ⟨none, some "Third source.".data⟩⟩

/-- Example citation list: one record holding a reference with text and a
reference without text. -/
def exC10 : List RawCitation := [⟨[exRefA, exRefEmpty]⟩]

/-- Example citation list of the spec: three references, the second of which
has empty text. -/
def exC5 : List RawCitation := [⟨[exRefA, exRefEmpty, exRefB]⟩]

end App

namespace App

/-- Claim C9 (confirmed): the sanitizer satisfies the spec's worked examples —
the boilerplate phrase "This is mentioned in the search results." is deleted
together with its trailing period, leaving "The answer is 42."; runs of two
or more spaces collapse to one and runs of three or more newlines collapse
to exactly two. -/
theorem C9_sanitizer_worked_examples :
    cleanup_response_text "The answer is 42. This is mentioned in the search results.".data =
        "The answer is 42.".data ∧
      cleanup_response_text "a    b\n\n\n\nc".data = "a b\n\nc".data :=
  ⟨by decide, by decide⟩

/-- Claim C4 (confirmed): for a non-empty raw completion whose sanitized text
is empty or shorter than 5 characters, the final validation of
`invoke_bedrock_agent` discards the sanitizer output and returns the trimmed
raw completion instead. -/
theorem C4_fallback_on_overcleanup (raw : List Char) (hne : raw ≠ [])
    (hshort : cleanup_response_text raw = [] ∨ (cleanup_response_text raw).length < 5) :
    finalizeCompletion raw = stripChars raw := by
  have hc : ((cleanup_response_text raw).isEmpty
      || decide ((cleanup_response_text raw).length < 5)) = true := by
    rcases hshort with h | h
    · simp [h]
    · simp [h]
  have hr : raw.isEmpty = false := by
    cases raw with
    | nil => exact absurd rfl hne
    | cons c s => rfl
  simp [finalizeCompletion, hc, hr]

/-- Witness for C4 at the concrete raw completion "Hi": non-empty, sanitized
unchanged but shorter than 5 characters, so the trimmed original is
returned. -/
theorem C4_fallback_witness :
    ("Hi".data ≠ [] ∧ (cleanup_response_text "Hi".data).length < 5) ∧
      finalizeCompletion "Hi".data = stripChars "Hi".data :=
  ⟨⟨by decide, by decide⟩,
    C4_fallback_on_overcleanup "Hi".data (by decide) (Or.inr (by decide))⟩

/-- Claim C7 (confirmed): both exception arms of `invoke_bedrock_agent`
return a `RawResponse` (they never re-raise) with an empty citation list and
an error text carrying a distinctive prefix — "Error: AWS Error: " for a
service (`ClientError`) failure and "Error: Error invoking agent: " for a
generic failure — and the chat handler still appends that response to the
message log as an assistant turn. -/
theorem C7_transport_error_fail_soft (msg prompt : List Char) (messages : List Turn) :
    (invoke_bedrock_agent (.clientError msg)).citations = [] ∧
      (invoke_bedrock_agent (.otherError msg)).citations = [] ∧
      (invoke_bedrock_agent (.clientError msg)).text = "Error: AWS Error: ".data ++ msg ∧
      (invoke_bedrock_agent (.otherError msg)).text =
        "Error: Error invoking agent: ".data ++ msg ∧
      "Error: AWS Error: ".data ≠ "Error: Error invoking agent: ".data ∧
      handle_chat_input messages prompt (.clientError msg) =
        messages ++ [⟨.user, prompt, []⟩,
          ⟨.assistant, "Error: AWS Error: ".data ++ msg, []⟩] ∧
      handle_chat_input messages prompt (.otherError msg) =
        messages ++ [⟨.user, prompt, []⟩,
          ⟨.assistant, "Error: Error invoking agent: ".data ++ msg, []⟩] := by
  refine ⟨rfl, rfl, rfl, rfl, by decide, ?_, ?_⟩ <;>
    simp [handle_chat_input, invoke_bedrock_agent]

/-- Claim C8 counterexample: the chat handler stores the assistant turn with
the response text as returned by the invoker; for a response with one valid
citation the stored text differs from the marker-inserted text, so the
stored text is not "the final text after marker insertion". -/
theorem C8_stored_text_lacks_markers_cex :
    handle_chat_input [] "Q".data (.success "Right.".data [⟨[exRefA]⟩]) =
        [⟨.user, "Q".data, []⟩, ⟨.assistant, "Right.".data, [⟨[exRefA]⟩]⟩] ∧
      insert_citation_markers "Right.".data [⟨[exRefA]⟩] ≠ "Right.".data :=
  ⟨by decide, by decide⟩

/-- Claim C8 (amended): the text stored in the conversation log is the
invoker's (sanitized, pre-marker) text; marker insertion runs in the display
loop, so the rendered content of the appended assistant turn equals the
marker-inserted stored text. -/
theorem C8_markers_inserted_at_display (messages : List Turn) (prompt : List Char)
    (outcome : InvokeOutcome) :
    (handle_chat_input messages prompt outcome).getLast? =
        some ⟨.assistant, (invoke_bedrock_agent outcome).text,
          (invoke_bedrock_agent outcome).citations⟩ ∧
      displayedContent ⟨.assistant, (invoke_bedrock_agent outcome).text,
          (invoke_bedrock_agent outcome).citations⟩ =
        insert_citation_markers (invoke_bedrock_agent outcome).text
          (invoke_bedrock_agent outcome).citations := by
  constructor
  · simp [handle_chat_input]
  · by_cases h : (invoke_bedrock_agent outcome).citations = []
    · simp [displayedContent, h, insert_citation_markers]
    · simp [displayedContent, h]

/-- Claim C10 (confirmed): the marker count of `insert_citation_markers` is
the total number of retrieved references with no filtering, while
`display_citation_sidebar` discards references without text; on a record
with one valid and one empty reference the text receives markers [1] [2]
although the sidebar retains a single numbered citation. -/
theorem C10_marker_count_unfiltered :
    (∀ cits : List RawCitation,
        citationCount cits = (cits.flatMap (fun c => c.retrievedReferences)).length) ∧
      citationCount exC10 = 2 ∧
      (display_citation_sidebar exC10).length = 1 ∧
      (display_citation_sidebar exC10).length < citationCount exC10 ∧
      insert_citation_markers "Answer.".data exC10 = "Answer. [1] [2]".data := by
  refine ⟨fun cits => ?_, by decide, by decide, by decide, by decide⟩
  simp only [citationCount, List.length_flatMap]
  congr 1

/-- The mid-sentence flag of the validator holds exactly on texts whose first
character is neither an uppercase ASCII letter nor an accepted leading
punctuation mark. -/
theorem startsMid_iff (text : List Char) :
    startsMidSentenceFlag text = true ↔
      ∃ c s, text = c :: s ∧ ¬(c.isUpper = true) ∧ c ∉ leadingPuncts := by
  cases text with
  | nil => simp [startsMidSentenceFlag]
  | cons c s =>
    simp [startsMidSentenceFlag, List.elem_iff]

/-- Claim C3 (amended): the too-short issue is flagged exactly when the
cleaned length is below 10 while the original length exceeds 10; the
mid-sentence issue is flagged exactly when the cleaned text is non-empty and
its first character is neither an uppercase letter (Python's
`str.isupper`, which is false on digits and punctuation, not only on
lowercase letters) nor one of `( [ " '`; no other issues are produced. -/
theorem C3_validator_characterization (text : List Char) (n : Nat) :
    (msgTooShort ∈ validate_response_integrity text n ↔ text.length < 10 ∧ n > 10) ∧
      (msgMidSentence ∈ validate_response_integrity text n ↔
        ∃ c s, text = c :: s ∧ ¬(c.isUpper = true) ∧ c ∉ leadingPuncts) ∧
      ∀ m ∈ validate_response_integrity text n, m = msgTooShort ∨ m = msgMidSentence := by
  have hne : msgTooShort ≠ msgMidSentence := by decide
  refine ⟨?_, ?_, ?_⟩
  · by_cases h1 : text.length < 10 ∧ n > 10 <;>
      by_cases h2 : startsMidSentenceFlag text = true <;>
      simp [validate_response_integrity, h1, h2, hne]
  · rw [← startsMid_iff]
    by_cases h1 : text.length < 10 ∧ n > 10 <;>
      by_cases h2 : startsMidSentenceFlag text = true <;>
      simp [validate_response_integrity, h1, h2, hne.symm]
  · by_cases h1 : text.length < 10 ∧ n > 10 <;>
      by_cases h2 : startsMidSentenceFlag text = true <;>
      simp [validate_response_integrity, h1, h2]

/-- Claim C3 counterexample: on a cleaned text starting with the digit `1`
the code flags the mid-sentence issue although `1` is not a lowercase
letter, so "flags exactly when the first character is lowercase" fails. -/
theorem C3_digit_flagged_cex :
    validate_response_integrity "123".data 0 = [msgMidSentence] ∧ '1'.isLower = false :=
  ⟨by decide, by decide⟩

/-- The numbers emitted by the sidebar loop are consecutive starting at its
counter argument. -/
theorem sidebarLoop_numbers : ∀ (refs : List Reference) (n : Nat),
    (sidebarLoop n refs).map Prod.fst = List.range' n (sidebarLoop n refs).length
  | [], _ => rfl
  | r :: rs, n => by
    cases h : keptRef r with
    | none => simpa [sidebarLoop, h] using sidebarLoop_numbers rs n
    | some e => simp [sidebarLoop, h, List.range'_succ, sidebarLoop_numbers rs (n + 1)]

/-- The entries emitted by the sidebar loop are exactly the kept references
in arrival order. -/
theorem sidebarLoop_entries : ∀ (refs : List Reference) (n : Nat),
    (sidebarLoop n refs).map Prod.snd = refs.filterMap keptRef
  | [], _ => rfl
  | r :: rs, n => by
    cases h : keptRef r with
    | none => simpa [sidebarLoop, h, List.filterMap_cons] using sidebarLoop_entries rs n
    | some e =>
      simp [sidebarLoop, h, List.filterMap_cons, sidebarLoop_entries rs (n + 1)]

/-- Claim C5 (confirmed): the sidebar discards exactly the references whose
resolved text is empty or absent (the surviving entries are the
`filterMap keptRef` of the flattened references in arrival order) and
numbers the survivors 1-based and contiguously; on the spec's example of
three references with the second empty, exactly two citations numbered 1
and 2 survive in order. -/
theorem C5_citation_aggregation :
    (∀ cits : List RawCitation,
        (display_citation_sidebar cits).map Prod.fst =
            List.range' 1 (display_citation_sidebar cits).length ∧
          (display_citation_sidebar cits).map Prod.snd =
            (cits.flatMap (fun c => c.retrievedReferences)).filterMap keptRef) ∧
      display_citation_sidebar exC5 =
        [(1, ⟨"guide.pdf".data, "s3://bucket/docs/guide.pdf".data, "First source.".data⟩),
         (2, ⟨"Unknown source".data, "Unknown source".data, "Third source.".data⟩)] := by
  refine ⟨fun cits => ⟨?_, ?_⟩, by decide⟩
  · exact sidebarLoop_numbers _ 1
  · exact sidebarLoop_entries _ 1

/-- The test `isPrefixOf` holds on an extension of the pattern itself. -/
theorem isPrefixOf_self_append : ∀ (l r : List Char), l.isPrefixOf (l ++ r) = true
  | [], _ => by simp [List.isPrefixOf]
  | c :: t, r => by simp [List.isPrefixOf, isPrefixOf_self_append t r]

/-- The test `containsSub` holds when the pattern starts the text. -/
theorem containsSub_self_append (p r : List Char) : containsSub p (p ++ r) = true := by
  cases p with
  | nil =>
    cases r with
    | nil => rfl
    | cons c s => rfl
  | cons a t => simp [containsSub, isPrefixOf_self_append]

/-- The test `containsSub` holds whenever the pattern occurs somewhere in the text. -/
theorem containsSub_sandwich (p : List Char) :
    ∀ (l r : List Char), containsSub p (l ++ (p ++ r)) = true
  | [], r => by simpa using containsSub_self_append p r
  | c :: t, r => by simp [containsSub, containsSub_sandwich p t r]

/-- Python `' '.join` of a non-empty list of pieces starts with the first piece. -/
theorem joinWith_head (sep : Char) (x : List Char) (xs : List (List Char)) :
    ∃ rest, joinWith sep (x :: xs) = x ++ rest := by
  cases xs with
  | nil => exact ⟨[], by simp [joinWith]⟩
  | cons y ys => exact ⟨sep :: joinWith sep (y :: ys), rfl⟩

/-- The marker token list for a positive count starts with the token `[1]`. -/
theorem markersList_head (n : Nat) :
    ∃ tail, markersList (n + 1) = marker 1 :: tail := by
  refine ⟨(List.map Nat.succ (List.range n)).map (fun i => marker (i + 1)), ?_⟩
  rw [markersList, List.range_succ_eq_map]
  rfl

/-- Claim C6 (confirmed): with zero counted references the text is returned
unchanged; with a positive count the space-separated run `[1] … [n]` is
appended exactly when none of those marker tokens already occurs in the
text; consequently a second application to the output with the same
citations returns it unchanged. -/
theorem C6_marker_insertion (text : List Char) (cits : List RawCitation) :
    insert_citation_markers text cits =
        (if citationCount cits = 0 then text
         else if (List.range (citationCount cits)).any
             (fun i => containsSub (marker (i + 1)) text) then text
         else text ++ ' ' :: joinWith ' ' (markersList (citationCount cits))) ∧
      insert_citation_markers (insert_citation_markers text cits) cits =
        insert_citation_markers text cits := by
  have h1 : ∀ t : List Char, insert_citation_markers t cits =
      (if citationCount cits = 0 then t
       else if (List.range (citationCount cits)).any
           (fun i => containsSub (marker (i + 1)) t) then t
       else t ++ ' ' :: joinWith ' ' (markersList (citationCount cits))) := by
    intro t
    by_cases hc : cits = []
    · subst hc
      simp [insert_citation_markers, citationCount]
    · have hne : cits.isEmpty = false := by
        cases cits with
        | nil => exact absurd rfl hc
        | cons _ _ => rfl
      rcases Nat.eq_zero_or_pos (citationCount cits) with h0 | hpos
      · simp [insert_citation_markers, hne, h0]
      · simp [insert_citation_markers, hne, hpos, Nat.pos_iff_ne_zero.mp hpos]
  refine ⟨h1 text, ?_⟩
  rcases Nat.eq_zero_or_pos (citationCount cits) with h0 | hpos
  · rw [h1 text, if_pos h0, h1 text, if_pos h0]
  · have h0' : ¬ citationCount cits = 0 := by omega
    by_cases hany : (List.range (citationCount cits)).any
        (fun i => containsSub (marker (i + 1)) text) = true
    · rw [h1 text, if_neg h0', if_pos hany, h1 text, if_neg h0', if_pos hany]
    · rw [h1 text, if_neg h0', if_neg hany]
      obtain ⟨m, hm⟩ : ∃ m, citationCount cits = m + 1 :=
        ⟨citationCount cits - 1, by omega⟩
      obtain ⟨tail, htail⟩ := markersList_head m
      obtain ⟨rest, hrest⟩ := joinWith_head ' ' (marker 1) tail
      have hin : (List.range (citationCount cits)).any
          (fun i => containsSub (marker (i + 1))
            (text ++ ' ' :: joinWith ' ' (markersList (citationCount cits)))) = true := by
        refine List.any_eq_true.mpr ⟨0, List.mem_range.mpr hpos, ?_⟩
        have : text ++ ' ' :: joinWith ' ' (markersList (citationCount cits)) =
            (text ++ [' ']) ++ (marker 1 ++ rest) := by
          rw [hm, htail, hrest]
          simp
        rw [this]
        exact containsSub_sandwich (marker 1) (text ++ [' ']) rest
      rw [h1 _, if_neg h0', if_pos hin]

/-- Python `str.replace` with a two-character pattern leaves a text without the
pattern's first character unchanged. -/
theorem replace2_of_not_mem (a b : Char) (rep : List Char) :
    ∀ s : List Char, a ∉ s → replace2 a b rep s = s
  | [], _ => rfl
  | [c], _ => rfl
  | c :: d :: s, h => by
    have hca : (c == a) = false :=
      beq_eq_false_iff_ne.mpr fun e => h (e ▸ List.mem_cons_self c (d :: s))
    have h' : a ∉ d :: s := fun hm => h (List.mem_cons_of_mem c hm)
    simp [replace2, hca, replace2_of_not_mem a b rep (d :: s) h']

/-- Python `str.replace` with a two-character pattern skips over a leading segment
without the pattern's first character. -/
theorem replace2_append_of_not_mem (a b : Char) (rep : List Char) :
    ∀ l m : List Char, a ∉ l → replace2 a b rep (l ++ m) = l ++ replace2 a b rep m
  | [], _, _ => rfl
  | [c], m, h => by
    have hca : (c == a) = false :=
      beq_eq_false_iff_ne.mpr fun e => h (e ▸ List.mem_cons_self c [])
    cases m with
    | nil => rfl
    | cons d u => simp [replace2, hca]
  | c :: c' :: t, m, h => by
    have hca : (c == a) = false :=
      beq_eq_false_iff_ne.mpr fun e => h (e ▸ List.mem_cons_self c (c' :: t))
    have h' : a ∉ c' :: t := fun hm => h (List.mem_cons_of_mem c hm)
    simp only [List.cons_append, replace2, hca, Bool.false_and, Bool.false_eq_true,
      if_false, List.cons.injEq, true_and]
    exact replace2_append_of_not_mem a b rep (c' :: t) m h'

/-- Claim C2 counterexample: the sanitizer's step 1 replaces a literal
backslash-t by a space, not by a tab. -/
theorem C2_tab_becomes_space_cex :
    repairEscapes "A\\tB".data = "A B".data ∧ repairEscapes "A\\tB".data ≠ "A\tB".data :=
  ⟨by decide, by decide⟩

/-- Claim C2 (amended): in the sanitizer's step 1 a literal backslash-n
becomes a real newline and a literal backslash-r is dropped entirely, but a
literal backslash-t becomes a single space rather than a tab; in particular
`sanitize("Line1\\nLine2") = "Line1\nLine2"`.  (Stated for an occurrence
flanked by backslash-free context.) -/
theorem C2_escape_repair_amended (s t : List Char) (hs : '\\' ∉ s) (ht : '\\' ∉ t) :
    repairEscapes (s ++ '\\' :: 'n' :: t) = s ++ '\n' :: t ∧
      repairEscapes (s ++ '\\' :: 't' :: t) = s ++ ' ' :: t ∧
      repairEscapes (s ++ '\\' :: 'r' :: t) = s ++ t ∧
      cleanup_response_text "Line1\\nLine2".data = "Line1\nLine2".data := by
  have hnl : '\\' ∉ s ++ '\n' :: t := by
    intro hmem
    rcases List.mem_append.mp hmem with h | h
    · exact hs h
    · rcases List.mem_cons.mp h with h | h
      · exact absurd h (by decide)
      · exact ht h
  have hsp : '\\' ∉ s ++ ' ' :: t := by
    intro hmem
    rcases List.mem_append.mp hmem with h | h
    · exact hs h
    · rcases List.mem_cons.mp h with h | h
      · exact absurd h (by decide)
      · exact ht h
  have hst : '\\' ∉ s ++ t := by
    intro hmem
    rcases List.mem_append.mp hmem with h | h
    · exact hs h
    · exact ht h
  refine ⟨?_, ?_, ?_, by decide⟩
  · have h1 : replace2 '\\' 'n' ['\n'] (s ++ '\\' :: 'n' :: t) = s ++ '\n' :: t := by
      rw [replace2_append_of_not_mem _ _ _ s _ hs]
      simp [replace2, replace2_of_not_mem '\\' 'n' ['\n'] t ht]
    rw [repairEscapes, h1, replace2_of_not_mem '\\' 't' [' '] _ hnl,
      replace2_of_not_mem '\\' 'r' [] _ hnl]
  · have h1 : replace2 '\\' 'n' ['\n'] (s ++ '\\' :: 't' :: t) = s ++ '\\' :: 't' :: t := by
      rw [replace2_append_of_not_mem _ _ _ s _ hs]
      have h2 : '\\' ∉ 't' :: t := by
        intro hmem
        rcases List.mem_cons.mp hmem with h | h
        · exact absurd h (by decide)
        · exact ht h
      simp [replace2, replace2_of_not_mem '\\' 'n' ['\n'] ('t' :: t) h2]
    have h3 : replace2 '\\' 't' [' '] (s ++ '\\' :: 't' :: t) = s ++ ' ' :: t := by
      rw [replace2_append_of_not_mem _ _ _ s _ hs]
      simp [replace2, replace2_of_not_mem '\\' 't' [' '] t ht]
    rw [repairEscapes, h1, h3, replace2_of_not_mem '\\' 'r' [] _ hsp]
  · have h2 : '\\' ∉ 'r' :: t := by
      intro hmem
      rcases List.mem_cons.mp hmem with h | h
      · exact absurd h (by decide)
      · exact ht h
    have h1 : replace2 '\\' 'n' ['\n'] (s ++ '\\' :: 'r' :: t) = s ++ '\\' :: 'r' :: t := by
      rw [replace2_append_of_not_mem _ _ _ s _ hs]
      simp [replace2, replace2_of_not_mem '\\' 'n' ['\n'] ('r' :: t) h2]
    have h3 : replace2 '\\' 't' [' '] (s ++ '\\' :: 'r' :: t) = s ++ '\\' :: 'r' :: t := by
      rw [replace2_append_of_not_mem _ _ _ s _ hs]
      simp [replace2, replace2_of_not_mem '\\' 't' [' '] ('r' :: t) h2]
    have h4 : replace2 '\\' 'r' [] (s ++ '\\' :: 'r' :: t) = s ++ t := by
      rw [replace2_append_of_not_mem _ _ _ s _ hs]
      simp [replace2, replace2_of_not_mem '\\' 'r' [] t ht]
    rw [repairEscapes, h1, h3, h4]

/-- Witness for C2 (amended) at the concrete context "A" … "B", together
with the worked example of the spec. -/
theorem C2_escape_repair_witness :
    ('\\' ∉ "A".data ∧ '\\' ∉ "B".data) ∧
      (repairEscapes ("A".data ++ '\\' :: 'n' :: "B".data) = "A".data ++ '\n' :: "B".data ∧
        repairEscapes ("A".data ++ '\\' :: 't' :: "B".data) = "A".data ++ ' ' :: "B".data ∧
        repairEscapes ("A".data ++ '\\' :: 'r' :: "B".data) = "A".data ++ "B".data ∧
        cleanup_response_text "Line1\\nLine2".data = "Line1\nLine2".data) :=
  ⟨⟨by decide, by decide⟩,
    C2_escape_repair_amended "A".data "B".data (by decide) (by decide)⟩

/-- A lowercase ASCII letter fails the uppercase test of `lowerAscii`. -/
theorem upperTest_eq_false_of_isLower (c : Char) (h : c.isLower = true) :
    (decide ('A' ≤ c) && decide (c ≤ 'Z')) = false := by
  simp [Char.isLower] at h
  simp only [Bool.and_eq_false_iff, decide_eq_false_iff_not]
  right
  intro h2
  rw [Char.le_def] at h2
  have h2' : c.val.toNat ≤ ('Z'.val).toNat := h2
  have h1' : (97 : UInt32).toNat ≤ c.val.toNat := h.1
  have e1 : ('Z'.val).toNat = 90 := rfl
  have e2 : (97 : UInt32).toNat = 97 := rfl
  omega

/-- Case folding fixes lowercase ASCII letters. -/
theorem lowerAscii_of_isLower (c : Char) (h : c.isLower = true) : lowerAscii c = c := by
  rw [lowerAscii, upperTest_eq_false_of_isLower c h]
  rfl

/-- A lowercase ASCII letter is not a space. -/
theorem ne_space_of_isLower (c : Char) (h : c.isLower = true) : c ≠ ' ' :=
  fun e => absurd (e ▸ h) (by decide)

/-- A lowercase ASCII letter is not a backslash. -/
theorem ne_backslash_of_isLower (c : Char) (h : c.isLower = true) : c ≠ '\\' :=
  fun e => absurd (e ▸ h) (by decide)

/-- A lowercase ASCII letter is not a newline. -/
theorem ne_newline_of_isLower (c : Char) (h : c.isLower = true) : c ≠ '\n' :=
  fun e => absurd (e ▸ h) (by decide)

/-- A lowercase ASCII letter is not Python whitespace. -/
theorem pyWhitespace_eq_false_of_isLower (c : Char) (h : c.isLower = true) :
    pyWhitespace c = false := by
  rcases Bool.eq_false_or_eq_true (pyWhitespace c) with ht | hf
  · exfalso
    simp [pyWhitespace] at ht
    rcases ht with ((((h1 | h1) | h1) | h1) | h1) | h1 <;>
      (subst h1; exact absurd h (by decide))
  · exact hf

/-- A pattern alternative containing a space cannot match at the head of a
text all of whose case-folded characters differ from the space. -/
theorem ciStartsWith_eq_false_of_space : ∀ (a s : List Char), ' ' ∈ a →
    (∀ b ∈ s, lowerAscii b ≠ ' ') → ciStartsWith a s = false
  | [], _, h, _ => absurd h (List.not_mem_nil ' ')
  | _ :: _, [], _, _ => rfl
  | a₀ :: as, b :: bs, h, hs => by
    rcases List.mem_cons.mp h with h0 | h0
    · have hb : lowerAscii b ≠ ' ' := hs b (List.mem_cons_self b bs)
      have hab : (lowerAscii a₀ == lowerAscii b) = false := by
        refine beq_eq_false_iff_ne.mpr ?_
        rw [← h0]
        intro e
        exact hb (by rw [← e]; rfl)
      simp [ciStartsWith, hab]
    · by_cases hab : (lowerAscii a₀ == lowerAscii b) = true
      · simp [ciStartsWith, hab,
          ciStartsWith_eq_false_of_space as bs h0 (fun x hx => hs x (List.mem_cons_of_mem _ hx))]
      · simp [ciStartsWith, Bool.not_eq_true _ ▸ hab]

/-- No alternative of a phrase list all of whose alternatives contain a
space matches anywhere in a space-free text. -/
theorem firstAltMatch_eq_none : ∀ (alts : List (List Char)) (s : List Char),
    (∀ a ∈ alts, ' ' ∈ a) → (∀ b ∈ s, lowerAscii b ≠ ' ') →
    firstAltMatch alts s = none
  | [], _, _, _ => rfl
  | a :: rest, s, ha, hs => by
    have h1 : ciStartsWith a s = false :=
      ciStartsWith_eq_false_of_space a s (ha a (List.mem_cons_self a rest)) hs
    simp [firstAltMatch, h1,
      firstAltMatch_eq_none rest s (fun x hx => ha x (List.mem_cons_of_mem _ hx)) hs]

/-- The phrase scanner is the identity on space-free text when every
alternative contains a space. -/
theorem subPatternAux_id : ∀ (alts : List (List Char)) (s : List Char),
    (∀ a ∈ alts, ' ' ∈ a) → (∀ b ∈ s, lowerAscii b ≠ ' ') →
    subPatternAux alts 0 s = s
  | _, [], _, _ => rfl
  | alts, c :: s, ha, hs => by
    have h1 : firstAltMatch alts (c :: s) = none := firstAltMatch_eq_none _ _ ha hs
    simp [subPatternAux, h1,
      subPatternAux_id alts s ha (fun b hb => hs b (List.mem_cons_of_mem _ hb))]

/-- Folding phrase removal over any catalogue of space-containing phrases
leaves space-free text unchanged. -/
theorem foldl_subPattern_id : ∀ (L : List (List (List Char))) (x : List Char),
    (∀ alts ∈ L, ∀ a ∈ alts, ' ' ∈ a) → (∀ b ∈ x, lowerAscii b ≠ ' ') →
    L.foldl (fun t alts => subPattern alts t) x = x
  | [], _, _, _ => rfl
  | alts :: L, x, hL, hx => by
    have h1 : subPattern alts x = x :=
      subPatternAux_id alts x (hL alts (List.mem_cons_self alts L)) hx
    rw [List.foldl_cons]
    show L.foldl (fun t alts => subPattern alts t) (subPattern alts x) = x
    rw [h1]
    exact foldl_subPattern_id L x (fun p hp => hL p (List.mem_cons_of_mem _ hp)) hx

/-- Every alternative of every phrase of `unwanted_phrases` contains a
space. -/
theorem unwanted_phrases_have_space : ∀ alts ∈ unwanted_phrases, ∀ a ∈ alts, ' ' ∈ a := by
  decide

/-- Boilerplate phrase removal is the identity on space-free text. -/
theorem removePhrases_id (x : List Char) (hx : ∀ b ∈ x, lowerAscii b ≠ ' ') :
    removePhrases x = x :=
  foldl_subPattern_id unwanted_phrases x unwanted_phrases_have_space hx

/-- Space collapsing is the identity on space-free text. -/
theorem collapseSpaces_of_not_mem : ∀ s : List Char, ' ' ∉ s → collapseSpaces s = s
  | [], _ => rfl
  | [_], _ => rfl
  | c :: d :: s, h => by
    have hc : (c == ' ') = false :=
      beq_eq_false_iff_ne.mpr fun e => h (List.mem_cons.mpr (Or.inl e.symm))
    simp [collapseSpaces, hc,
      collapseSpaces_of_not_mem (d :: s) (fun hm => h (List.mem_cons_of_mem _ hm))]

/-- Newline collapsing is the identity on newline-free text. -/
theorem collapseNLAux_of_not_mem : ∀ s : List Char, '\n' ∉ s → collapseNLAux 0 s = s
  | [], _ => rfl
  | c :: s, h => by
    have hc : (c == '\n') = false :=
      beq_eq_false_iff_ne.mpr fun e => h (List.mem_cons.mpr (Or.inl e.symm))
    simp [collapseNLAux, hc, newlinesOut,
      collapseNLAux_of_not_mem s (fun hm => h (List.mem_cons_of_mem _ hm))]

/-- Splitting on a separator absent from the text yields the single piece. -/
theorem splitOnChar_of_not_mem (sep : Char) : ∀ s : List Char, sep ∉ s →
    splitOnChar sep s = [s]
  | [], _ => rfl
  | c :: s, h => by
    have hc : (c == sep) = false :=
      beq_eq_false_iff_ne.mpr fun e => h (List.mem_cons.mpr (Or.inl e.symm))
    simp [splitOnChar, hc,
      splitOnChar_of_not_mem sep s (fun hm => h (List.mem_cons_of_mem _ hm))]

/-- The function `dropWhile` is the identity when the predicate fails on every element. -/
theorem dropWhile_eq_self_of_forall {p : Char → Bool} : ∀ l : List Char,
    (∀ c ∈ l, p c = false) → l.dropWhile p = l
  | [], _ => rfl
  | c :: s, h => by simp [List.dropWhile_cons, h c (List.mem_cons_self c s)]

/-- Python `str.strip()` is the identity on whitespace-free text. -/
theorem stripChars_of_forall (l : List Char) (h : ∀ c ∈ l, pyWhitespace c = false) :
    stripChars l = l := by
  rw [stripChars, dropWhile_eq_self_of_forall l h, dropWhile_eq_self_of_forall l.reverse
    (fun c hc => h c (List.mem_reverse.mp hc)), List.reverse_reverse]

/-- Every nonempty-or-empty string of lowercase ASCII letters is a fixed
point of the sanitizer. -/
theorem cleanup_fixed_of_isLower (x : List Char) (h : ∀ c ∈ x, c.isLower = true) :
    cleanup_response_text x = x := by
  have hbs : '\\' ∉ x := fun hm => ne_backslash_of_isLower _ (h _ hm) rfl
  have hsp : ' ' ∉ x := fun hm => ne_space_of_isLower _ (h _ hm) rfl
  have hnl : '\n' ∉ x := fun hm => ne_newline_of_isLower _ (h _ hm) rfl
  have hla : ∀ b ∈ x, lowerAscii b ≠ ' ' := fun b hb e => by
    rw [lowerAscii_of_isLower b (h b hb)] at e
    exact ne_space_of_isLower b (h b hb) e
  have hws : ∀ c ∈ x, pyWhitespace c = false :=
    fun c hc => pyWhitespace_eq_false_of_isLower c (h c hc)
  rw [cleanup_response_text, repairEscapes, replace2_of_not_mem _ _ _ x hbs,
    replace2_of_not_mem _ _ _ x hbs, replace2_of_not_mem _ _ _ x hbs,
    removePhrases_id x hla, collapseSpaces_of_not_mem x hsp, collapseNewlines,
    collapseNLAux_of_not_mem x hnl, splitOnChar_of_not_mem '\n' x hnl]
  show stripChars (joinWith '\n' [stripChars x]) = x
  rw [stripChars_of_forall x hws]
  show stripChars x = x
  exact stripChars_of_forall x hws

/-- Claim C1 counterexample: the sanitizer is not idempotent: in
"a\n \n \nb" the per-line trimming of the two whitespace-only lines creates
a new run of three newlines that only a second pass collapses, so the
second application changes the result. -/
theorem C1_not_idempotent_cex :
    cleanup_response_text (cleanup_response_text "a\n \n \nb".data) ≠
      cleanup_response_text "a\n \n \nb".data := by decide

/-- Claim C1 (amended): the sanitizer is not idempotent on all strings (see
the counterexample); it is idempotent on already-clean input — every string
of lowercase ASCII letters is a fixed point of the pipeline, so a second
application returns the first result unchanged there. -/
theorem C1_idempotent_on_clean_amended (x : List Char)
    (h : ∀ c ∈ x, c.isLower = true) :
    cleanup_response_text x = x ∧
      cleanup_response_text (cleanup_response_text x) = cleanup_response_text x := by
  have hfix := cleanup_fixed_of_isLower x h
  exact ⟨hfix, by rw [hfix, hfix]⟩

/-- Witness for C1 (amended) at the concrete input "hello". -/
theorem C1_idempotent_witness :
    (∀ c ∈ "hello".data, c.isLower = true) ∧
      (cleanup_response_text "hello".data = "hello".data ∧
        cleanup_response_text (cleanup_response_text "hello".data) =
          cleanup_response_text "hello".data) :=
  ⟨by decide, C1_idempotent_on_clean_amended "hello".data (by decide)⟩

end App
